import Mathlib

/-!
# oauth2-cli: the authorization code flow

A shallow embedding of `internal/flows/code.go` (`RunAuthorizationCode`) and
`internal/security/generator.go` (`GenerateRandomString`), with the pieces of
the Go standard library that the flow computes with (`net/url` query values,
`encoding/hex`), followed by the theorems about them.

Go strings are immutable byte sequences, so they are lists of bytes here and
the comparison `!=` of the source is list disequality.
-/

namespace OAuth2

/-! ## Go strings -/

/-- A Go `byte`. -/
abbrev Byte := Fin 256

/-- A Go `string`: a sequence of bytes. -/
abbrev GoString := List Byte

/-- The byte of an ASCII character (all literals of the source are ASCII). -/
def ch (c : Char) : Byte := Fin.ofNat c.toNat

/-- A source literal as a Go string (the literals of the source are ASCII). -/
def str (s : String) : GoString := s.data.map ch

/-- Go `%d` of an `int`: the decimal digits, with a leading minus sign when negative. -/
def fmtInt (n : Int) : GoString := str (toString n)

/-! ## encoding/hex -/

/-- The table `hextable` of `encoding/hex`. -/
def hextable : GoString := str "0123456789abcdef"

/-- Go `hex.EncodeToString`: two table characters per byte, `hextable[v>>4]`
then `hextable[v&0x0f]`. -/
def hexEncodeToString : List Byte → GoString
  | [] => []
  | v :: rest =>
    hextable.getD (v.val >>> 4) 0 :: hextable.getD (v.val &&& 0x0f) 0 :: hexEncodeToString rest

/-! ## net/url: query escaping -/

/-- Go `strings.Cut(s, sep)` for a one-byte separator: the text before the
first `sep` and the text after it (everything and nothing when there is none). -/
def cut (sep : Byte) (s : GoString) : GoString × GoString :=
  (s.takeWhile (fun c => c != sep), (s.dropWhile (fun c => c != sep)).drop 1)

/-- The alphanumeric test that opens `shouldEscape`. -/
def isAlnum (c : Byte) : Bool :=
  (ch 'a' ≤ c && c ≤ ch 'z') || (ch 'A' ≤ c && c ≤ ch 'Z') || (ch '0' ≤ c && c ≤ ch '9')

/-- Go `shouldEscape(c, encodeQueryComponent)`: everything is escaped except
the unreserved characters (alphanumerics and `-`, `_`, `.`, `~`). -/
def shouldEscape (c : Byte) : Bool :=
  if isAlnum c then false
  else if c = ch '-' ∨ c = ch '_' ∨ c = ch '.' ∨ c = ch '~' then false
  else true

/-- The table `upperhex` of `net/url`. -/
def upperhex : GoString := str "0123456789ABCDEF"

/-- Go `url.QueryEscape`: a space becomes `+`, a byte that `shouldEscape`
becomes `%` and two upper-case hex digits, every other byte is kept. -/
def QueryEscape : GoString → GoString
  | [] => []
  | c :: s =>
    if c = ch ' ' then ch '+' :: QueryEscape s
    else if shouldEscape c then
      ch '%' :: upperhex.getD (c.val >>> 4) 0 :: upperhex.getD (c.val &&& 15) 0 :: QueryEscape s
    else c :: QueryEscape s

/-- Go `ishex`. -/
def ishex (c : Byte) : Bool :=
  (ch '0' ≤ c && c ≤ ch '9') || (ch 'a' ≤ c && c ≤ ch 'f') || (ch 'A' ≤ c && c ≤ ch 'F')

/-- Go `unhex`. -/
def unhex (c : Byte) : Byte :=
  if ch '0' ≤ c && c ≤ ch '9' then c - ch '0'
  else if ch 'a' ≤ c && c ≤ ch 'f' then c - ch 'a' + 10
  else if ch 'A' ≤ c && c ≤ ch 'F' then c - ch 'A' + 10
  else 0

/-- Go `url.QueryUnescape`: `%XX` becomes the byte `unhex(X)<<4 | unhex(X)`,
`+` becomes a space; `none` is the `EscapeError` for a `%` that is not
followed by two hex digits. -/
def QueryUnescape : GoString → Option GoString
  | [] => some []
  | c :: s =>
    if c = ch '%' then
      match s with
      | a :: b :: rest =>
        if ishex a && ishex b then
          (QueryUnescape rest).map (fun t => (unhex a <<< 4 ||| unhex b) :: t)
        else none
      | _ => none
    else if c = ch '+' then (QueryUnescape s).map (fun t => ch ' ' :: t)
    else (QueryUnescape s).map (fun t => c :: t)

/-! ## net/url: Values -/

/-- Go `url.Values` (and `http.Header`), a `map[string][]string`. The map is
kept as its list of assignments, newest first: the first entry of a key is
its current value, a key without entry reads as the nil slice. -/
abbrev Values := List (GoString × List GoString)

/-- The map read `v[key]`. -/
def Values.index : Values → GoString → List GoString
  | [], _ => []
  | (k, vs) :: m, key => if k = key then vs else Values.index m key

/-- The map write `v[key] = vs`. -/
def Values.assign (v : Values) (key : GoString) (vs : List GoString) : Values :=
  (key, vs) :: v

/-- The keys of the map, each once (`for k := range v`). -/
def Values.keys (v : Values) : List GoString := (v.map Prod.fst).dedup

/-- Go `Values.Get`: the first value of the key, or the empty string. -/
def Values.Get (v : Values) (key : GoString) : GoString :=
  match v.index key with
  | [] => []
  | first :: _ => first

/-- Go `Values.Set`: `v[key] = []string{value}`. -/
def Values.Set (v : Values) (key value : GoString) : Values :=
  v.assign key [value]

/-- Go `Values.Add` and `Header.Add`: `v[key] = append(v[key], value)`. -/
def Values.Add (v : Values) (key value : GoString) : Values :=
  v.assign key (v.index key ++ [value])

/-- Go `sort.Strings`: ascending byte-wise order. -/
def sortStrings (keys : List GoString) : List GoString :=
  keys.insertionSort (fun a b => a ≤ b)

/-- One write of the inner loop of `Values.Encode`: a `&` when the buffer is
not empty, then `key=value`, both escaped. -/
def encodeWrite (buf : GoString) (key value : GoString) : GoString :=
  (if buf.length > 0 then buf ++ [ch '&'] else buf)
    ++ QueryEscape key ++ [ch '='] ++ QueryEscape value

/-- Go `Values.Encode`: the keys in sorted order, and for each key its values
in order, written as `key=value` joined by `&`. -/
def Values.Encode (v : Values) : GoString :=
  (sortStrings v.keys).foldl
    (fun buf k => (v.index k).foldl (fun buf value => encodeWrite buf k value) buf) []

/-- The text `Values.Encode` writes for one value of a key. -/
def querySegment (p : GoString × GoString) : GoString :=
  QueryEscape p.1 ++ ch '=' :: QueryEscape p.2

/-- The segments of the pairs, each preceded by `&`. -/
def tailSegments : List (GoString × GoString) → GoString
  | [] => []
  | p :: ps => ch '&' :: (querySegment p ++ tailSegments ps)

/-- The pairs `(key, value)` in the order `Values.Encode` writes them. -/
def Values.pairs (v : Values) : List (GoString × GoString) :=
  (sortStrings v.keys).flatMap (fun k => (v.index k).map (fun value => (k, value)))

/-- The loop of Go `url.ParseQuery` (as of Go 1.17, where `&` is the only
separator); `fuel` bounds the number of iterations (each one consumes at least
one byte of a non-empty `query`). A segment with a semicolon, an empty segment
and a segment whose key or value does not unescape are skipped; the error they
set is the one `URL.Query` discards. -/
def parseQueryLoop : Nat → Values → GoString → Values
  | 0, m, _ => m
  | fuel + 1, m, query =>
    if query = [] then m
    else
      let key := (cut (ch '&') query).1
      let query := (cut (ch '&') query).2
      if key.contains (ch ';') then parseQueryLoop fuel m query
      else if key = [] then parseQueryLoop fuel m query
      else
        let value := (cut (ch '=') key).2
        let key := (cut (ch '=') key).1
        match QueryUnescape key with
        | none => parseQueryLoop fuel m query
        | some key =>
          match QueryUnescape value with
          | none => parseQueryLoop fuel m query
          | some value => parseQueryLoop fuel (m.Add key value) query

/-- Go `url.ParseQuery` with its error dropped, as `URL.Query` calls it. -/
def ParseQuery (query : GoString) : Values :=
  parseQueryLoop query.length [] query

/-! ## net/url and net/http: the data the flow handles -/

/-- Go `url.Userinfo`. -/
structure Userinfo where
  username : GoString
  password : GoString
  passwordSet : Bool
deriving DecidableEq, Repr

/-- Go `url.UserPassword`. -/
def UserPassword (username password : GoString) : Userinfo :=
  { username := username, password := password, passwordSet := true }

/-- Go `url.URL`. -/
structure URL where
  Scheme : GoString := []
  Opaque : GoString := []
  User : Option Userinfo := none
  Host : GoString := []
  Path : GoString := []
  RawPath : GoString := []
  ForceQuery : Bool := false
  RawQuery : GoString := []
  Fragment : GoString := []
  RawFragment : GoString := []
deriving DecidableEq, Repr

/-- Go `(*URL).Query`: `ParseQuery(u.RawQuery)` with the error discarded. -/
def URL.Query (u : URL) : Values := ParseQuery u.RawQuery

/-- Go `http.Request`, the fields `http.NewRequest` fills for a string body. -/
structure Request where
  Method : GoString
  URL : URL
  Header : Values
  Body : GoString
  ContentLength : Int
  Host : GoString
deriving DecidableEq, Repr

/-- Go `http.Response` as the flow reads it: the status code, and what
`ioutil.ReadAll(response.Body)` returns (the body, or the text of the read error). -/
structure Response where
  StatusCode : Int
  Body : Except GoString GoString

/-- A value decoded by `encoding/json` into an `interface{}`; a number is a
`float64`, kept as its bit pattern since the flow never computes with it. -/
inductive JSONValue where
  | null
  | bool (b : Bool)
  | number (float64bits : Nat)
  | string (s : GoString)
  | array (items : List JSONValue)
  | object (members : List (GoString × JSONValue))

/-- A decoded `map[string]interface{}`: the members, first entry of a key current. -/
abbrev JSONObject := List (GoString × JSONValue)

/-- The member of a decoded object for `key`, the nil interface (`null`)
when there is none. -/
def JSONObject.member : JSONObject → GoString → JSONValue
  | [], _ => JSONValue.null
  | (k, x) :: m, key => if k = key then x else JSONObject.member m key

/-- The map read `m[key]` of a `map[string]interface{}`; the nil map (`none`)
reads as the nil interface for every key. -/
def JSONObject.index (m : Option JSONObject) (key : GoString) : JSONValue :=
  match m with
  | none => JSONValue.null
  | some object => object.member key

/-- The type assertion `x.(string)` in its two-result form. -/
def JSONValue.asString : JSONValue → GoString × Bool
  | JSONValue.string s => (s, true)
  | _ => ([], false)

/-- Go `strings.LastIndex(s, c)` for a one-byte `c`, scanning from index `i`
with `best` the last hit so far (`-1` for none). -/
def lastIndexFrom (c : Byte) : GoString → Nat → Int → Int
  | [], _, best => best
  | x :: s, i, best => lastIndexFrom c s (i + 1) (if x = c then (i : Int) else best)

/-- Go `hasPort` of `net/http`. -/
def hasPort (s : GoString) : Bool :=
  lastIndexFrom (ch ':') s 0 (-1) > lastIndexFrom (ch ']') s 0 (-1)

/-- Go `removeEmptyPort` of `net/http`: strips the `:` of an empty port. -/
def removeEmptyPort (host : GoString) : GoString :=
  if hasPort host then
    (if host.getLast? = some (ch ':') then host.dropLast else host)
  else host

/-! ## The environment of one run -/

/-- What is first sent on `resultChannel`: the callback route is requested,
or `http.ListenAndServe` returns. -/
inductive ChanEvent where
  | callback (u : URL)
  | listenStopped (err : GoString)

/-- The library calls and outside events one run of the flow depends on.
An `error` carries the text of the Go error (`err.Error()`). -/
structure World where
  /-- Go `url.Parse`. -/
  urlParse : GoString → Except GoString URL
  /-- Go `(*URL).String`. -/
  urlString : URL → GoString
  /-- The first send on the result channel; `none` when nothing is ever sent
  and the receive blocks forever. -/
  event : Option ChanEvent
  /-- Go `http.DefaultClient.Do`. -/
  httpDo : Request → Except GoString Response
  /-- Go `json.Unmarshal` into a nil `map[string]interface{}`; `ok none` is
  the map left nil (the body `null`). -/
  jsonUnmarshal : GoString → Except GoString (Option JSONObject)

/-- Go `http.NewRequest(method, url, strings.NewReader(body))` for a valid
method: the URL is parsed, an empty port is removed from its host, the header
map is empty. -/
def NewRequest (w : World) (method url body : GoString) : Except GoString Request :=
  match w.urlParse url with
  | Except.error err => Except.error err
  | Except.ok u =>
    Except.ok
      { Method := method
        URL := { u with Host := removeEmptyPort u.Host }
        Header := []
        Body := body
        ContentLength := body.length
        Host := removeEmptyPort u.Host }

/-! ## internal/flows/code.go -/

/-- The struct `AuthorizationCodeInput`. -/
structure AuthorizationCodeInput where
  AuthorizeURI : GoString
  TokenURI : GoString
  RedirectURI : GoString
  ClientID : GoString
  ClientSecret : GoString
  Scope : GoString
  State : GoString
deriving DecidableEq, Repr

/-- The struct `AuthorizationCodeOptions`; its `OpenBrowser` callback is
recorded in `Effects.opened`. -/
structure AuthorizationCodeOptions where
  HTTPServerPort : Int
deriving DecidableEq, Repr

/-- The struct `AuthorizationCodeOutput`; a nil pointer and a nil map are `none`. -/
structure AuthorizationCodeOutput where
  AccessToken : GoString
  IDToken : Option GoString
  RawResponse : Option JSONObject

/-- The zero value `AuthorizationCodeOutput{}`. -/
def AuthorizationCodeOutput.zero : AuthorizationCodeOutput :=
  { AccessToken := [], IDToken := none, RawResponse := none }

/-- The local struct `AuthResult`; a nil `Err` is `none`. -/
structure AuthResult where
  Code : GoString
  Err : Option GoString
deriving DecidableEq, Repr

/-- The page the callback handler writes. -/
def callbackPage : GoString :=
  str "<html><body><script type=\"text/javascript\">window.close()</script></body></html>"

/-- The function registered with `http.HandleFunc`: the `AuthResult` it sends
for a request with URL `u`. -/
def callbackHandler (urlString : URL → GoString) (expectedState : GoString) (u : URL) :
    AuthResult :=
  let queryParams := u.Query
  let actualState := queryParams.Get (str "state")
  if actualState ≠ expectedState then
    { Code := [],
      Err := some (str "invalid state. expected:" ++ expectedState ++ str "; got:" ++ actualState) }
  else
    let errorCode := queryParams.Get (str "error")
    let errorDescription := queryParams.Get (str "error_description")
    if errorCode ≠ [] ∨ errorDescription ≠ [] then
      { Code := [],
        Err := some (str "oauth server returned an error. code:" ++ errorCode
                ++ str "; description: " ++ errorDescription) }
    else
      let code := u.Query.Get (str "code")
      if code = [] then
        { Code := [],
          Err := some (str "code is not part of the parameters. url:" ++ urlString u) }
      else
        { Code := code, Err := none }

/-- The side effects of one run, in the order of the calls. -/
structure Effects where
  /-- The arguments of `opts.OpenBrowser`. -/
  opened : List GoString := []
  /-- The patterns given to `http.HandleFunc`. -/
  routes : List GoString := []
  /-- The addresses given to `http.ListenAndServe`. -/
  listen : List GoString := []
  /-- The bodies written by the callback handler. -/
  written : List GoString := []
  /-- The requests given to `http.DefaultClient.Do`. -/
  requests : List Request := []

/-- What one run does: its effects, and the pair it returns (`none` when it
never returns); a nil error is `none`. -/
structure Run where
  effects : Effects
  returned : Option (AuthorizationCodeOutput × Option GoString)

/-- The authorize URL of lines 45-57: the parsed `AuthorizeURI` with the five
parameters set in its query. -/
def authorizeURL (input : AuthorizationCodeInput) (authorizeURI : URL) : URL :=
  let values := authorizeURI.Query
  let values := values.Set (str "client_id") input.ClientID
  let values := values.Set (str "redirect_uri") input.RedirectURI
  let values := values.Set (str "scope") input.Scope
  let values := values.Set (str "response_type") (str "code")
  let values := values.Set (str "state") input.State
  { authorizeURI with RawQuery := values.Encode }

/-- The form of lines 107-112, the body of the token request before encoding. -/
def tokenForm (input : AuthorizationCodeInput) (code : GoString) : Values :=
  let body : Values := []
  let body := body.Set (str "grant_type") (str "authorization_code")
  let body := body.Set (str "code") code
  let body := body.Set (str "redirect_uri") input.RedirectURI
  let body := body.Set (str "client_id") input.ClientID
  let body := body.Set (str "client_secret") input.ClientSecret
  body

/-- Lines 107-120: the token request, as it is given to `http.DefaultClient.Do`;
an `error` is the error of `http.NewRequest`. -/
def tokenRequest (w : World) (input : AuthorizationCodeInput) (code : GoString) :
    Except GoString Request :=
  match NewRequest w (str "POST") input.TokenURI (tokenForm input code).Encode with
  | Except.error err => Except.error err
  | Except.ok request =>
    let request :=
      { request with
        Header := request.Header.Add (str "Content-Type") (str "application/x-www-form-urlencoded") }
    let request :=
      { request with
        URL := { request.URL with User := some (UserPassword input.ClientID input.ClientSecret) } }
    Except.ok request

/-- Lines 107-156: the exchange of the code for the token, after the effects
`eff` of the first half. -/
def exchangeCode (w : World) (input : AuthorizationCodeInput) (eff : Effects)
    (code : GoString) : Run :=
  match tokenRequest w input code with
  | Except.error err =>
    { effects := eff,
      returned := some (AuthorizationCodeOutput.zero,
        some (str "can't build request to the '" ++ input.TokenURI ++ str "' endpoint: " ++ err)) }
  | Except.ok request =>
    let eff := { eff with requests := eff.requests ++ [request] }
    match w.httpDo request with
    | Except.error err =>
      { effects := eff,
        returned := some (AuthorizationCodeOutput.zero,
          some (str "can't send request to the '" ++ input.TokenURI
            ++ str "' endpoint with code '" ++ code ++ str "': " ++ err)) }
    | Except.ok response =>
      match response.Body with
      | Except.error err =>
        { effects := eff,
          returned := some (AuthorizationCodeOutput.zero,
            some (str "can't read response body from the '" ++ input.TokenURI
              ++ str "' endpoint (code was '" ++ code ++ str "'): " ++ err)) }
      | Except.ok respBody =>
        if response.StatusCode ≠ 200 then
          { effects := eff,
            returned := some (AuthorizationCodeOutput.zero,
              some (str "unexpected http status from the '" ++ input.TokenURI
                ++ str "' endpoint with code '" ++ code ++ str "'. expected:" ++ fmtInt 200
                ++ str "; got:" ++ fmtInt response.StatusCode ++ str "; body: " ++ respBody)) }
        else
          match w.jsonUnmarshal respBody with
          | Except.error err =>
            { effects := eff,
              returned := some (AuthorizationCodeOutput.zero,
                some (str "cant' decode successful response from the '" ++ input.TokenURI
                  ++ str "' endpoint with code '" ++ code ++ str "'. body: " ++ respBody
                  ++ str "; err: " ++ err)) }
          | Except.ok tokenResponse =>
            let accessToken := (JSONObject.index tokenResponse (str "access_token")).asString
            if !accessToken.2 then
              { effects := eff,
                returned := some (AuthorizationCodeOutput.zero,
                  some (str "missing 'access_token'' from json response. body: " ++ respBody
                    ++ str "; err: " ++ str "<nil>")) }
            else
              let maybeIDToken := (JSONObject.index tokenResponse (str "id_token")).asString
              let idToken := if maybeIDToken.2 then some maybeIDToken.1 else none
              { effects := eff,
                returned := some
                  ({ AccessToken := accessToken.1, IDToken := idToken, RawResponse := tokenResponse },
                   none) }

/-- The function `RunAuthorizationCode`. The goroutine and the channel are
folded into `w.event`, the first `AuthResult` the main path receives. -/
def RunAuthorizationCode (w : World) (input : AuthorizationCodeInput)
    (opts : AuthorizationCodeOptions) : Run :=
  match w.urlParse input.AuthorizeURI with
  | Except.error err =>
    { effects := {},
      returned := some (AuthorizationCodeOutput.zero, some (str "can't parse authorize uri: " ++ err)) }
  | Except.ok authorizeURI =>
    let authorizeURI := authorizeURL input authorizeURI
    let eff : Effects :=
      { opened := [w.urlString authorizeURI],
        routes := [str "/oauth/callback"],
        listen := [str ":" ++ fmtInt opts.HTTPServerPort] }
    match w.event with
    | none => { effects := eff, returned := none }
    | some (ChanEvent.listenStopped err) =>
      { effects := eff,
        returned := some (AuthorizationCodeOutput.zero,
          some (str "http server stopped" ++ str "%!(EXTRA string=" ++ err ++ str ")")) }
    | some (ChanEvent.callback u) =>
      let eff := { eff with written := [callbackPage] }
      let result := callbackHandler w.urlString input.State u
      match result.Err with
      | some err => { effects := eff, returned := some (AuthorizationCodeOutput.zero, err) }
      | none => exchangeCode w input eff result.Code

/-! ## internal/security/generator.go -/

/-- Go `crypto/rand.Read(b)`, that is `io.ReadFull(Reader, b)`: an empty `b`
is returned as it is without reading the source; otherwise an error of the
source, or every byte of `b` filled, byte `i` with `random i`. -/
def randRead (random : Except GoString (Nat → Byte)) (b : List Byte) :
    Except GoString (List Byte) :=
  if b.length = 0 then Except.ok b
  else
    match random with
    | Except.error err => Except.error err
    | Except.ok f => Except.ok ((List.range b.length).map f)

/-- The function `GenerateRandomString`: the pair it returns, `none` when
`make` panics on a negative size. -/
def GenerateRandomString (random : Except GoString (Nat → Byte)) (size : Int) :
    Option (GoString × Option GoString) :=
  if size < 0 then none
  else
    let bytes : List Byte := List.replicate size.toNat 0
    match randRead random bytes with
    | Except.error err => some ([], some (str "can't generate random string: " ++ err))
    | Except.ok bytes => some (hexEncodeToString bytes, none)

/-- Lines 144-151 of `cmd/auth.go`: the state handed to the flow, given the
state read from the terminal; the pair is the state and the error returned. -/
def authorizeState (random : Except GoString (Nat → Byte)) (state : GoString) :
    Option (GoString × Option GoString) :=
  if state = [] then
    match GenerateRandomString random 10 with
    | none => none
    | some (_, some err) => some ([], some (str "can't generate state: " ++ err))
    | some (generated, none) => some (generated, none)
  else some (state, none)

/-! ## Example values -/

/-- The URL `url.Parse` returns for the authorize URI of the examples. -/
def exampleAuthorizeURL : URL :=
  { Scheme := str "https", Host := str "idp.example", Path := str "/authorize",
    RawQuery := str "state=old&state=older&audience=api" }

/-- The results of `url.Parse` on the texts the examples use (a table of
those results, not a parser). -/
def exampleParse (s : GoString) : Except GoString URL :=
  if s = str "https://idp.example/authorize?state=old&state=older&audience=api" then
    Except.ok exampleAuthorizeURL
  else if s = str "https://idp.example/token" then
    Except.ok { Scheme := str "https", Host := str "idp.example", Path := str "/token" }
  else if s = str "http://localhost:9876/oauth/callback" then
    Except.ok { Scheme := str "http", Host := str "localhost:9876", Path := str "/oauth/callback" }
  else if s = str "http://localhost:9876/cb" then
    Except.ok { Scheme := str "http", Host := str "localhost:9876", Path := str "/cb" }
  else if s = str ":foo" then
    Except.error (str "parse \":foo\": missing protocol scheme")
  else Except.error (str "not one of the examples")

/-- The text `(*URL).String` gives for a URL that has a path and a query, with
or without a scheme and a host, the shape of the URLs the examples use. -/
def exampleString (u : URL) : GoString :=
  (if u.Scheme = [] then [] else u.Scheme ++ str "://") ++ u.Host ++ u.Path
    ++ (if u.RawQuery = [] then [] else str "?" ++ u.RawQuery)

/-- A world over the example table, with the given channel event, the given
answer of the token endpoint and the given result of decoding its body. -/
def exampleWorld (event : Option ChanEvent) (answer : Except GoString Response)
    (decoded : Except GoString (Option JSONObject)) : World :=
  { urlParse := exampleParse
    urlString := exampleString
    event := event
    httpDo := fun _ => answer
    jsonUnmarshal := fun _ => decoded }

/-- An input over the example table. -/
def exampleInput : AuthorizationCodeInput :=
  { AuthorizeURI := str "https://idp.example/authorize?state=old&state=older&audience=api"
    TokenURI := str "https://idp.example/token"
    RedirectURI := str "http://localhost:9876/oauth/callback"
    ClientID := str "my client"
    ClientSecret := str "s3cr&t"
    Scope := str "openid profile"
    State := str "ABC" }

/-- The token response body of the example. -/
def exampleTokenBody : GoString :=
  str "\x7b\"access_token\":\"T1\",\"id_token\":\"I1\",\"extra\":\"E1\"\x7d"

/-- The object `json.Unmarshal` decodes `exampleTokenBody` to. -/
def exampleTokenObject : JSONObject :=
  [(str "access_token", JSONValue.string (str "T1")),
   (str "id_token", JSONValue.string (str "I1")),
   (str "extra", JSONValue.string (str "E1"))]

/-- The callback request `GET /oauth/callback?<query>`. -/
def exampleCallback (query : GoString) : URL :=
  { Path := str "/oauth/callback", RawQuery := query }

/-! ## Lemmas -/

/-! ### Bytes -/

set_option maxRecDepth 100000 in
theorem upperhex_not_separator (c : Byte) :
    (upperhex.getD (c.val >>> 4) 0 ≠ ch '&' ∧ upperhex.getD (c.val >>> 4) 0 ≠ ch ';'
      ∧ upperhex.getD (c.val >>> 4) 0 ≠ ch '=')
    ∧ (upperhex.getD (c.val &&& 15) 0 ≠ ch '&' ∧ upperhex.getD (c.val &&& 15) 0 ≠ ch ';'
      ∧ upperhex.getD (c.val &&& 15) 0 ≠ ch '=') := by
  revert c
  decide

set_option maxRecDepth 100000 in
theorem unreserved_not_special (c : Byte) (h : shouldEscape c = false) :
    c ≠ ch '&' ∧ c ≠ ch ';' ∧ c ≠ ch '=' ∧ c ≠ ch '%' ∧ c ≠ ch '+' := by
  revert c
  decide

set_option maxRecDepth 100000 in
theorem unhex_upperhex (c : Byte) :
    ishex (upperhex.getD (c.val >>> 4) 0) = true ∧ ishex (upperhex.getD (c.val &&& 15) 0) = true
    ∧ (unhex (upperhex.getD (c.val >>> 4) 0) <<< 4 ||| unhex (upperhex.getD (c.val &&& 15) 0)) = c := by
  revert c
  decide

/-! ### Escaping and unescaping -/

/-- An escaped text holds no `&`, `;` or `=`. -/
theorem QueryEscape_no_separator (s : GoString) :
    ∀ x ∈ QueryEscape s, x ≠ ch '&' ∧ x ≠ ch ';' ∧ x ≠ ch '=' := by
  induction s with
  | nil => intro x hx; simp [QueryEscape] at hx
  | cons c s ih =>
    intro x hx
    unfold QueryEscape at hx
    split at hx
    · rcases List.mem_cons.mp hx with h | h
      · subst h; decide
      · exact ih x h
    · split at hx
      · rcases List.mem_cons.mp hx with h | h
        · subst h; decide
        · rcases List.mem_cons.mp h with h | h
          · subst h; exact (upperhex_not_separator c).1
          · rcases List.mem_cons.mp h with h | h
            · subst h; exact (upperhex_not_separator c).2
            · exact ih x h
      · rename_i hesc
        rcases List.mem_cons.mp hx with h | h
        · subst h
          have := unreserved_not_special x (by simpa using hesc)
          exact ⟨this.1, this.2.1, this.2.2.1⟩
        · exact ih x h

/-- Unescaping a text that starts with `+`. -/
theorem QueryUnescape_plus (t : GoString) :
    QueryUnescape (ch '+' :: t) = (QueryUnescape t).map (fun r => ch ' ' :: r) := by
  conv => lhs; unfold QueryUnescape
  rw [if_neg (by decide), if_pos rfl]

/-- Unescaping a text that starts with a well-formed `%XX`. -/
theorem QueryUnescape_percent (a b : Byte) (t : GoString) (ha : ishex a = true)
    (hb : ishex b = true) :
    QueryUnescape (ch '%' :: a :: b :: t)
      = (QueryUnescape t).map (fun r => (unhex a <<< 4 ||| unhex b) :: r) := by
  conv => lhs; unfold QueryUnescape
  rw [if_pos rfl]
  simp only [ha, hb, Bool.and_self, if_true]

/-- Unescaping a text that starts with a byte other than `%` and `+`. -/
theorem QueryUnescape_plain (c : Byte) (t : GoString) (h1 : c ≠ ch '%') (h2 : c ≠ ch '+') :
    QueryUnescape (c :: t) = (QueryUnescape t).map (fun r => c :: r) := by
  conv => lhs; unfold QueryUnescape
  rw [if_neg h1, if_neg h2]

/-- Unescaping an escaped text gives the text back. -/
theorem QueryUnescape_QueryEscape (s : GoString) : QueryUnescape (QueryEscape s) = some s := by
  induction s with
  | nil => rfl
  | cons c s ih =>
    unfold QueryEscape
    split
    · rename_i hsp
      rw [QueryUnescape_plus, ih, hsp]
      rfl
    · split
      · have h := unhex_upperhex c
        rw [QueryUnescape_percent _ _ _ h.1 h.2.1, ih, h.2.2]
        rfl
      · rename_i hesc
        have h := unreserved_not_special c (by simpa using hesc)
        rw [QueryUnescape_plain _ _ h.2.2.2.1 h.2.2.2.2, ih]
        rfl

/-! ### Cutting -/

/-- Cutting at a separator that first occurs right after `a`, or not at all. -/
theorem cut_append (sep : Byte) (a t : GoString) (ha : ∀ x ∈ a, x ≠ sep)
    (ht : t = [] ∨ ∃ rest, t = sep :: rest) : cut sep (a ++ t) = (a, t.drop 1) := by
  induction a with
  | nil =>
    rcases ht with h | ⟨rest, h⟩
    · subst h; simp [cut]
    · subst h; simp [cut]
  | cons c a ih =>
    have hc : c ≠ sep := ha c (List.mem_cons_self _ _)
    have ih' := ih (fun x hx => ha x (List.mem_cons_of_mem _ hx))
    simp only [cut, Prod.mk.injEq] at ih' ⊢
    simp [hc, ih'.1, ih'.2]

/-! ### Parsing what was encoded -/

/-- A segment holds no `&` and no `;`. -/
theorem querySegment_no_separator (p : GoString × GoString) :
    ∀ x ∈ querySegment p, x ≠ ch '&' ∧ x ≠ ch ';' := by
  intro x hx
  unfold querySegment at hx
  rcases List.mem_append.mp hx with h | h
  · exact ⟨(QueryEscape_no_separator _ x h).1, (QueryEscape_no_separator _ x h).2.1⟩
  · rcases List.mem_cons.mp h with h | h
    · subst h; decide
    · exact ⟨(QueryEscape_no_separator _ x h).1, (QueryEscape_no_separator _ x h).2.1⟩

/-- A segment is not empty. -/
theorem querySegment_ne_nil (p : GoString × GoString) : querySegment p ≠ [] := by
  unfold querySegment
  simp

/-- The loop on the empty query returns the map. -/
theorem parseQueryLoop_nil (fuel : Nat) (m : Values) : parseQueryLoop fuel m [] = m := by
  cases fuel <;> simp [parseQueryLoop]

/-- One iteration of the loop on a query that starts with an encoded segment,
followed by nothing or by `&`: the pair of the segment is added. -/
theorem parseQueryLoop_segment (fuel : Nat) (m : Values) (p : GoString × GoString)
    (t : GoString) (ht : t = [] ∨ ∃ rest, t = ch '&' :: rest) :
    parseQueryLoop (fuel + 1) m (querySegment p ++ t)
      = parseQueryLoop fuel (m.Add p.1 p.2) (t.drop 1) := by
  have hcut : cut (ch '&') (querySegment p ++ t) = (querySegment p, t.drop 1) :=
    cut_append _ _ _ (fun x hx => (querySegment_no_separator p x hx).1) ht
  have hsemi : (querySegment p).contains (ch ';') = false := by
    rw [Bool.eq_false_iff]
    intro h
    have hmem : ch ';' ∈ querySegment p := by simpa using h
    exact (querySegment_no_separator p _ hmem).2 rfl
  have hcut2 : cut (ch '=') (querySegment p) = (QueryEscape p.1, QueryEscape p.2) := by
    have := cut_append (ch '=') (QueryEscape p.1) (ch '=' :: QueryEscape p.2)
      (fun x hx => (QueryEscape_no_separator _ x hx).2.2) (Or.inr ⟨_, rfl⟩)
    simpa [querySegment] using this
  have hne : querySegment p ++ t ≠ [] := by
    intro h
    exact querySegment_ne_nil p (List.append_eq_nil.mp h).1
  rw [parseQueryLoop]
  simp only [hne, if_false, hcut, hsemi, querySegment_ne_nil p, hcut2,
    QueryUnescape_QueryEscape, Bool.false_eq_true]

/-- The loop on the segments of a non-empty list of pairs adds the pairs in order. -/
theorem parseQueryLoop_segments (ps : List (GoString × GoString)) :
    ∀ (p : GoString × GoString) (m : Values) (fuel : Nat),
      (querySegment p ++ tailSegments ps).length ≤ fuel →
      parseQueryLoop fuel m (querySegment p ++ tailSegments ps)
        = (p :: ps).foldl (fun m q => m.Add q.1 q.2) m := by
  induction ps with
  | nil =>
    intro p m fuel hfuel
    cases fuel with
    | zero =>
      have := querySegment_ne_nil p
      simp [tailSegments] at hfuel
      exact absurd hfuel this
    | succ fuel =>
      rw [parseQueryLoop_segment fuel m p (tailSegments []) (Or.inl rfl)]
      simp [tailSegments, parseQueryLoop_nil]
  | cons q qs ih =>
    intro p m fuel hfuel
    cases fuel with
    | zero =>
      have := querySegment_ne_nil p
      simp [tailSegments] at hfuel
    | succ fuel =>
      rw [parseQueryLoop_segment fuel m p (tailSegments (q :: qs)) (Or.inr ⟨_, rfl⟩)]
      have hlen : (querySegment q ++ tailSegments qs).length ≤ fuel := by
        simp only [tailSegments, List.length_append, List.length_cons] at hfuel ⊢
        omega
      simp only [tailSegments, List.drop_succ_cons, List.drop_zero]
      rw [ih q (m.Add p.1 p.2) fuel hlen]
      rfl

/-! ### What `Encode` writes -/

/-- Writing pairs after a non-empty buffer appends their segments, each after `&`. -/
theorem foldl_encodeWrite (ps : List (GoString × GoString)) :
    ∀ buf : GoString, buf ≠ [] →
      ps.foldl (fun buf q => encodeWrite buf q.1 q.2) buf = buf ++ tailSegments ps := by
  induction ps with
  | nil => intro buf _; simp [tailSegments]
  | cons p ps ih =>
    intro buf hbuf
    have hpos : buf.length > 0 := List.length_pos.mpr hbuf
    have hstep : encodeWrite buf p.1 p.2 = buf ++ ch '&' :: querySegment p := by
      simp [encodeWrite, hpos, querySegment]
    rw [List.foldl_cons, hstep, ih _ (by simp)]
    simp [tailSegments]

/-- The nested loops of `Encode` write the pairs of the map in order. -/
theorem foldl_keys_eq_foldl_pairs (index : GoString → List GoString) (keys : List GoString) :
    ∀ buf : GoString,
      keys.foldl (fun buf k => (index k).foldl (fun buf value => encodeWrite buf k value) buf) buf
        = (keys.flatMap (fun k => (index k).map (fun value => (k, value)))).foldl
            (fun buf q => encodeWrite buf q.1 q.2) buf := by
  induction keys with
  | nil => intro buf; rfl
  | cons k keys ih =>
    intro buf
    rw [List.foldl_cons, ih, List.flatMap_cons, List.foldl_append, List.foldl_map]

/-- The text `Encode` returns: nothing for no pair, else the first segment
followed by the other ones, each after `&`. -/
theorem Encode_eq (v : Values) :
    v.Encode = match v.pairs with
      | [] => []
      | p :: ps => querySegment p ++ tailSegments ps := by
  unfold Values.Encode
  rw [foldl_keys_eq_foldl_pairs]
  change v.pairs.foldl (fun buf q => encodeWrite buf q.1 q.2) [] = _
  cases v.pairs with
  | nil => rfl
  | cons p ps =>
    have hstep : encodeWrite [] p.1 p.2 = querySegment p := by
      simp [encodeWrite, querySegment]
    rw [List.foldl_cons, hstep, foldl_encodeWrite ps _ (querySegment_ne_nil p)]

/-! ### Reading the map -/

/-- Reading after `Add`. -/
theorem index_Add (m : Values) (key value k : GoString) :
    (m.Add key value).index k = if key = k then m.index key ++ [value] else m.index k := by
  simp [Values.Add, Values.assign, Values.index]

/-- Reading after `Set`. -/
theorem index_Set (m : Values) (key value k : GoString) :
    (m.Set key value).index k = if key = k then [value] else m.index k := by
  simp [Values.Set, Values.assign, Values.index]

/-- A key that is not among the entries reads as the nil slice. -/
theorem index_eq_nil (m : Values) (k : GoString) (h : k ∉ m.map Prod.fst) : m.index k = [] := by
  induction m with
  | nil => rfl
  | cons e m ih =>
    obtain ⟨k', vs⟩ := e
    simp only [List.map_cons, List.mem_cons, not_or] at h
    simp only [Values.index]
    rw [if_neg (fun heq => h.1 heq.symm)]
    exact ih h.2

/-- Reading after adding pairs in order: the values of the key among the
pairs follow what was there. -/
theorem index_foldl_Add (ps : List (GoString × GoString)) (k : GoString) :
    ∀ m : Values,
      (ps.foldl (fun m q => m.Add q.1 q.2) m).index k
        = m.index k ++ (ps.filter (fun q => q.1 = k)).map Prod.snd := by
  induction ps with
  | nil => intro m; simp
  | cons p ps ih =>
    intro m
    rw [List.foldl_cons, ih, index_Add]
    by_cases h : p.1 = k
    · simp [h, List.filter_cons]
    · simp [h, List.filter_cons]

/-- The values of a key among the pairs of distinct keys. -/
theorem filter_pairs (index : GoString → List GoString) (k : GoString) (keys : List GoString)
    (hnodup : keys.Nodup) :
    ((keys.flatMap (fun k' => (index k').map (fun value => (k', value)))).filter
        (fun q => q.1 = k)).map Prod.snd
      = if k ∈ keys then index k else [] := by
  induction keys with
  | nil => simp
  | cons k' keys ih =>
    have hnd := List.nodup_cons.mp hnodup
    rw [List.flatMap_cons, List.filter_append, List.map_append, ih hnd.2]
    by_cases h : k' = k
    · subst h
      have hfilter : ((index k').map (fun value => (k', value))).filter (fun q => q.1 = k')
          = (index k').map (fun value => (k', value)) := by
        apply List.filter_eq_self.mpr
        intro q hq
        obtain ⟨value, -, rfl⟩ := List.mem_map.mp hq
        simp
      rw [hfilter]
      simp [hnd.1, Function.comp_def]
    · have hfilter : ((index k').map (fun value => (k', value))).filter (fun q => q.1 = k)
          = [] := by
        apply List.filter_eq_nil_iff.mpr
        intro q hq
        obtain ⟨value, -, rfl⟩ := List.mem_map.mp hq
        simpa using h
      rw [hfilter]
      have hk : k ≠ k' := fun heq => h heq.symm
      simp [hk]

/-- The keys `Encode` walks are distinct and are the keys of the entries. -/
theorem sortStrings_keys (v : Values) :
    (sortStrings v.keys).Nodup ∧ ∀ k, k ∈ sortStrings v.keys ↔ k ∈ v.map Prod.fst := by
  have hperm : (sortStrings v.keys).Perm v.keys := List.perm_insertionSort _ _
  refine ⟨hperm.nodup_iff.mpr (List.nodup_dedup _), ?_⟩
  intro k
  rw [hperm.mem_iff]
  exact List.mem_dedup

/-- Decoding an encoded map gives the map back: every key reads the same. -/
theorem ParseQuery_Encode (v : Values) (k : GoString) :
    (ParseQuery v.Encode).index k = v.index k := by
  have hpairs : (v.pairs.filter (fun q => q.1 = k)).map Prod.snd = v.index k := by
    unfold Values.pairs
    rw [filter_pairs _ _ _ (sortStrings_keys v).1]
    by_cases hk : k ∈ sortStrings v.keys
    · simp [hk]
    · rw [if_neg hk]
      exact (index_eq_nil v k (fun h => hk (((sortStrings_keys v).2 k).mpr h))).symm
  unfold ParseQuery
  rw [Encode_eq]
  cases hps : v.pairs with
  | nil =>
    rw [hps] at hpairs
    simp only [parseQueryLoop_nil]
    simpa [Values.index] using hpairs
  | cons p ps =>
    rw [hps] at hpairs
    simp only []
    rw [parseQueryLoop_segments ps p [] _ (le_refl _), index_foldl_Add, hpairs]
    simp [Values.index]

/-! ### Fuel -/

/-- What is left after a cut of a non-empty text is shorter than the text. -/
theorem cut_snd_length (sep : Byte) (s : GoString) (hs : s ≠ []) :
    (cut sep s).2.length < s.length := by
  have hle : (s.dropWhile (fun c => c != sep)).length ≤ s.length :=
    (List.dropWhile_suffix _).sublist.length_le
  have hpos : 0 < s.length := List.length_pos.mpr hs
  simp only [cut, List.length_drop]
  omega

/-- More fuel than the length of the query does not change the result of the loop. -/
theorem parseQueryLoop_succ (fuel : Nat) :
    ∀ (m : Values) (query : GoString), query.length ≤ fuel →
      parseQueryLoop (fuel + 1) m query = parseQueryLoop fuel m query := by
  induction fuel with
  | zero =>
    intro m query h
    have hq : query = [] := List.length_eq_zero.mp (Nat.le_zero.mp h)
    subst hq
    simp [parseQueryLoop_nil]
  | succ fuel ih =>
    intro m query h
    by_cases hq : query = []
    · subst hq
      simp [parseQueryLoop_nil]
    · have hrest : (cut (ch '&') query).2.length ≤ fuel := by
        have := cut_snd_length (ch '&') query hq
        omega
      conv_lhs => rw [parseQueryLoop]
      conv_rhs => rw [parseQueryLoop]
      simp only [hq, if_false, ih _ _ hrest]

/-- The fuel `ParseQuery` gives the loop is enough: any larger amount gives
the same map. -/
theorem ParseQuery_fuel (query : GoString) (extra : Nat) :
    parseQueryLoop (query.length + extra) [] query = ParseQuery query := by
  induction extra with
  | zero => rfl
  | succ extra ih =>
    rw [← ih, ← Nat.add_assoc]
    exact parseQueryLoop_succ _ _ _ (Nat.le_add_right _ _)

/-! ### The effects of a run -/

/-- The exchange keeps the effects it starts from and gives `Do` the token
request when that request can be built. -/
theorem exchangeCode_effects (w : World) (input : AuthorizationCodeInput) (eff : Effects)
    (code : GoString) :
    (exchangeCode w input eff code).effects.opened = eff.opened
    ∧ (exchangeCode w input eff code).effects.routes = eff.routes
    ∧ (exchangeCode w input eff code).effects.requests = eff.requests ++
        (match tokenRequest w input code with
         | Except.ok request => [request]
         | Except.error _ => []) := by
  unfold exchangeCode
  cases tokenRequest w input code with
  | error err => simp
  | ok request =>
    simp only []
    cases w.httpDo request with
    | error err => exact ⟨rfl, rfl, rfl⟩
    | ok response =>
      simp only []
      cases response.Body with
      | error err => exact ⟨rfl, rfl, rfl⟩
      | ok respBody =>
        simp only []
        split
        · exact ⟨rfl, rfl, rfl⟩
        · cases w.jsonUnmarshal respBody with
          | error err => exact ⟨rfl, rfl, rfl⟩
          | ok tokenResponse =>
            simp only []
            split <;> exact ⟨rfl, rfl, rfl⟩

/-- When the authorize URI parses, the run opens the browser once, on the
authorize URL, and registers the one route. -/
theorem run_effects_of_parse (w : World) (input : AuthorizationCodeInput)
    (opts : AuthorizationCodeOptions) (authorizeURI : URL)
    (hparse : w.urlParse input.AuthorizeURI = Except.ok authorizeURI) :
    (RunAuthorizationCode w input opts).effects.opened
      = [w.urlString (authorizeURL input authorizeURI)]
    ∧ (RunAuthorizationCode w input opts).effects.routes = [str "/oauth/callback"] := by
  unfold RunAuthorizationCode
  simp only [hparse]
  cases w.event with
  | none => exact ⟨rfl, rfl⟩
  | some event =>
    cases event with
    | listenStopped err => exact ⟨rfl, rfl⟩
    | callback u =>
      simp only []
      cases (callbackHandler w.urlString input.State u).Err with
      | some err => exact ⟨rfl, rfl⟩
      | none =>
        simp only []
        have h := exchangeCode_effects w input
          { opened := [w.urlString (authorizeURL input authorizeURI)],
            routes := [str "/oauth/callback"],
            listen := [str ":" ++ fmtInt opts.HTTPServerPort],
            written := [callbackPage] }
          (callbackHandler w.urlString input.State u).Code
        exact ⟨h.1, h.2.1⟩

/-- When the authorize URI does not parse, the run returns the parse error
and has no effect. -/
theorem run_of_parse_error (w : World) (input : AuthorizationCodeInput)
    (opts : AuthorizationCodeOptions) (err : GoString)
    (hparse : w.urlParse input.AuthorizeURI = Except.error err) :
    RunAuthorizationCode w input opts =
      { effects := {},
        returned := some (AuthorizationCodeOutput.zero,
          some (str "can't parse authorize uri: " ++ err)) } := by
  unfold RunAuthorizationCode
  simp only [hparse]

/-- The routes a run registers, by whether the authorize URI parses. -/
theorem run_routes (w : World) (input : AuthorizationCodeInput)
    (opts : AuthorizationCodeOptions) :
    (RunAuthorizationCode w input opts).effects.routes =
      match w.urlParse input.AuthorizeURI with
      | Except.ok _ => [str "/oauth/callback"]
      | Except.error _ => [] := by
  cases hparse : w.urlParse input.AuthorizeURI with
  | error err => rw [run_of_parse_error w input opts err hparse]
  | ok authorizeURI => exact (run_effects_of_parse w input opts authorizeURI hparse).2

/-- Reading the query of the authorize URL: the five parameters of the flow
have one value each, the other keys read as in the base URI. -/
theorem authorizeURL_index (input : AuthorizationCodeInput) (a : URL) (k : GoString) :
    (authorizeURL input a).Query.index k =
      if str "state" = k then [input.State]
      else if str "response_type" = k then [str "code"]
      else if str "scope" = k then [input.Scope]
      else if str "redirect_uri" = k then [input.RedirectURI]
      else if str "client_id" = k then [input.ClientID]
      else a.Query.index k := by
  simp only [authorizeURL, URL.Query, ParseQuery_Encode, index_Set]

/-- Reading the decoded body of the token request. -/
theorem tokenForm_index (input : AuthorizationCodeInput) (code k : GoString) :
    (ParseQuery (tokenForm input code).Encode).index k =
      if str "client_secret" = k then [input.ClientSecret]
      else if str "client_id" = k then [input.ClientID]
      else if str "redirect_uri" = k then [input.RedirectURI]
      else if str "code" = k then [code]
      else if str "grant_type" = k then [str "authorization_code"]
      else [] := by
  rw [ParseQuery_Encode]
  simp only [tokenForm, index_Set]
  rfl


/-! ### Reaching the exchange -/

/-- The run up to the exchange: when the authorize URI parses and the callback
handler delivers a code, the run returns what the exchange of that code returns. -/
theorem run_returned_of_code (w : World) (input : AuthorizationCodeInput)
    (opts : AuthorizationCodeOptions) (authorizeURI u : URL) (code : GoString)
    (hparse : w.urlParse input.AuthorizeURI = Except.ok authorizeURI)
    (hevent : w.event = some (ChanEvent.callback u))
    (hcode : callbackHandler w.urlString input.State u = { Code := code, Err := none }) :
    ∃ eff, RunAuthorizationCode w input opts = exchangeCode w input eff code
      ∧ eff.requests = [] := by
  simp only [RunAuthorizationCode, hparse, hevent, hcode]
  exact ⟨_, rfl, rfl⟩


/-- The length of a hex encoding is twice the number of bytes. -/
theorem hexEncodeToString_length (bytes : List Byte) :
    (hexEncodeToString bytes).length = 2 * bytes.length := by
  induction bytes with
  | nil => rfl
  | cons v rest ih => simp only [hexEncodeToString, List.length_cons, ih]; omega


/-! ## Properties of the flow -/

/-- C1: in the callback handler, a request whose `state` parameter (its
first value, the empty string when absent) differs from the expected state gets
the invalid-state error naming both, and no code, whatever else it carries. -/
theorem callbackHandler_state_mismatch (urlString : URL → GoString) (expectedState : GoString)
    (u : URL) (h : u.Query.Get (str "state") ≠ expectedState) :
    callbackHandler urlString expectedState u =
      { Code := [],
        Err := some (str "invalid state. expected:" ++ expectedState ++ str "; got:"
                ++ u.Query.Get (str "state")) } := by
  simp [callbackHandler, h]

theorem callbackHandler_state_mismatch_witness :
    (exampleCallback (str "state=abc&code=xyz")).Query.Get (str "state") = str "abc"
    ∧ str "abc" ≠ str "ABC"
    ∧ callbackHandler exampleString (str "ABC") (exampleCallback (str "state=abc&code=xyz")) =
        { Code := [], Err := some (str "invalid state. expected:ABC; got:abc") }
    ∧ callbackHandler exampleString (str "ABC") (exampleCallback (str "code=xyz")) =
        { Code := [], Err := some (str "invalid state. expected:ABC; got:") } :=
  ⟨by decide, by decide,
   callbackHandler_state_mismatch exampleString (str "ABC")
     (exampleCallback (str "state=abc&code=xyz")) (by decide),
   callbackHandler_state_mismatch exampleString (str "ABC")
     (exampleCallback (str "code=xyz")) (by decide)⟩

/-- C2: in the callback handler, a request whose state matches and whose
`error` or `error_description` parameter is not empty gets the error of the
authorization server, carrying both, and no code, whatever its `code` is. -/
theorem callbackHandler_server_error (urlString : URL → GoString) (expectedState : GoString)
    (u : URL) (hstate : u.Query.Get (str "state") = expectedState)
    (herr : u.Query.Get (str "error") ≠ [] ∨ u.Query.Get (str "error_description") ≠ []) :
    callbackHandler urlString expectedState u =
      { Code := [],
        Err := some (str "oauth server returned an error. code:" ++ u.Query.Get (str "error")
                ++ str "; description: " ++ u.Query.Get (str "error_description")) } := by
  simp only [callbackHandler, hstate, ne_eq, not_true_eq_false, if_false, if_pos herr]

theorem callbackHandler_server_error_witness :
    (exampleCallback (str "error=access_denied&code=xyz&state=ABC")).Query.Get (str "code")
      = str "xyz"
    ∧ callbackHandler exampleString (str "ABC")
        (exampleCallback (str "error=access_denied&code=xyz&state=ABC")) =
        { Code := [],
          Err := some (str "oauth server returned an error. code:access_denied; description: ") } :=
  ⟨by decide,
   callbackHandler_server_error exampleString (str "ABC")
     (exampleCallback (str "error=access_denied&code=xyz&state=ABC")) (by decide)
     (Or.inl (by decide))⟩

/-- C3: in the callback handler, for a request whose state matches and whose
`error` and `error_description` are empty, an empty `code` gets the missing-code
error ending in the request URL, and a non-empty one is delivered, being the
first value of `code`; and the handler delivers a code exactly when the state
matches, both error parameters are empty and `code` is not empty. -/
theorem callbackHandler_code (urlString : URL → GoString) (expectedState : GoString) (u : URL) :
    (u.Query.Get (str "state") = expectedState → u.Query.Get (str "error") = [] →
      u.Query.Get (str "error_description") = [] →
        (u.Query.Get (str "code") = [] →
          callbackHandler urlString expectedState u =
            { Code := [],
              Err := some (str "code is not part of the parameters. url:" ++ urlString u) })
        ∧ (u.Query.Get (str "code") ≠ [] →
          callbackHandler urlString expectedState u =
            { Code := u.Query.Get (str "code"), Err := none }
          ∧ ∃ others, u.Query.index (str "code") = u.Query.Get (str "code") :: others))
    ∧ ((callbackHandler urlString expectedState u).Err = none ↔
        (u.Query.Get (str "state") = expectedState ∧ u.Query.Get (str "error") = []
          ∧ u.Query.Get (str "error_description") = [] ∧ u.Query.Get (str "code") ≠ [])) := by
  refine ⟨?_, ?_⟩
  · intro hs he hd
    refine ⟨?_, ?_⟩
    · intro hc
      simp [callbackHandler, hs, he, hd, hc]
    · intro hc
      refine ⟨by simp [callbackHandler, hs, he, hd, hc], ?_⟩
      unfold Values.Get at hc ⊢
      cases hi : u.Query.index (str "code") with
      | nil => simp [hi] at hc
      | cons first others => exact ⟨others, rfl⟩
  · unfold callbackHandler
    by_cases hs : u.Query.Get (str "state") = expectedState
    · by_cases he : u.Query.Get (str "error") = []
      · by_cases hd : u.Query.Get (str "error_description") = []
        · by_cases hc : u.Query.Get (str "code") = [] <;> simp [hs, he, hd, hc]
        · simp [hs, he, hd]
      · simp [hs, he]
    · simp [hs]

theorem callbackHandler_code_witness :
    callbackHandler exampleString (str "ABC") (exampleCallback (str "state=ABC")) =
        { Code := [],
          Err := some (str "code is not part of the parameters. url:/oauth/callback?state=ABC") }
    ∧ callbackHandler exampleString (str "ABC")
        (exampleCallback (str "code=xyz&state=ABC&code=second")) =
        { Code := str "xyz", Err := none } :=
  ⟨((callbackHandler_code exampleString (str "ABC") (exampleCallback (str "state=ABC"))).1
      (by decide) (by decide) (by decide)).1 (by decide),
   (((callbackHandler_code exampleString (str "ABC")
      (exampleCallback (str "code=xyz&state=ABC&code=second"))).1
      (by decide) (by decide) (by decide)).2 (by decide)).1⟩

/-- C4: when the authorize URI parses, the browser is opened once, on the
text of the parsed URI with only its query replaced (same scheme, host and
path); that query decodes to exactly one value for each of `client_id`,
`redirect_uri`, `scope`, `response_type` (`code`) and `state`, those of the
input, and to the values of the base URI for every other key. When it does
not parse, the run returns the parse error and the browser is not opened. -/
theorem authorize_url_opened (w : World) (input : AuthorizationCodeInput)
    (opts : AuthorizationCodeOptions) :
    (∀ a, w.urlParse input.AuthorizeURI = Except.ok a →
      (RunAuthorizationCode w input opts).effects.opened = [w.urlString (authorizeURL input a)]
      ∧ authorizeURL input a = { a with RawQuery := (authorizeURL input a).RawQuery }
      ∧ (authorizeURL input a).Scheme = a.Scheme
      ∧ (authorizeURL input a).Host = a.Host
      ∧ (authorizeURL input a).Path = a.Path
      ∧ (authorizeURL input a).Query.index (str "client_id") = [input.ClientID]
      ∧ (authorizeURL input a).Query.index (str "redirect_uri") = [input.RedirectURI]
      ∧ (authorizeURL input a).Query.index (str "scope") = [input.Scope]
      ∧ (authorizeURL input a).Query.index (str "response_type") = [str "code"]
      ∧ (authorizeURL input a).Query.index (str "state") = [input.State]
      ∧ ∀ k, k ≠ str "client_id" → k ≠ str "redirect_uri" → k ≠ str "scope" →
          k ≠ str "response_type" → k ≠ str "state" →
          (authorizeURL input a).Query.index k = a.Query.index k)
    ∧ (∀ err, w.urlParse input.AuthorizeURI = Except.error err →
      (RunAuthorizationCode w input opts).returned
        = some ({ AccessToken := [], IDToken := none, RawResponse := none },
            some (str "can't parse authorize uri: " ++ err))
      ∧ (RunAuthorizationCode w input opts).effects.opened = []) := by
  refine ⟨?_, ?_⟩
  · intro a hparse
    refine ⟨(run_effects_of_parse w input opts a hparse).1, rfl, rfl, rfl, rfl, ?_, ?_, ?_, ?_,
      ?_, ?_⟩
    · rw [authorizeURL_index]; simp +decide
    · rw [authorizeURL_index]; simp +decide
    · rw [authorizeURL_index]; simp +decide
    · rw [authorizeURL_index]; simp +decide
    · rw [authorizeURL_index]; simp +decide
    · intro k h1 h2 h3 h4 h5
      rw [authorizeURL_index, if_neg (Ne.symm h5), if_neg (Ne.symm h4), if_neg (Ne.symm h3),
        if_neg (Ne.symm h2), if_neg (Ne.symm h1)]
  · intro err hparse
    rw [run_of_parse_error w input opts err hparse]
    exact ⟨rfl, rfl⟩

set_option maxRecDepth 100000 in
theorem authorize_url_opened_witness :
    exampleParse exampleInput.AuthorizeURI = Except.ok exampleAuthorizeURL
    ∧ (RunAuthorizationCode (exampleWorld none (Except.error []) (Except.error []))
        exampleInput { HTTPServerPort := 9876 }).effects.opened
      = [exampleString (authorizeURL exampleInput exampleAuthorizeURL)]
    ∧ exampleString (authorizeURL exampleInput exampleAuthorizeURL)
      = str "https://idp.example/authorize?audience=api&client_id=my+client&redirect_uri=http%3A%2F%2Flocalhost%3A9876%2Foauth%2Fcallback&response_type=code&scope=openid+profile&state=ABC"
    ∧ exampleAuthorizeURL.Query.index (str "state") = [str "old", str "older"]
    ∧ (authorizeURL exampleInput exampleAuthorizeURL).Query.index (str "state") = [str "ABC"] :=
  ⟨rfl,
   ((authorize_url_opened (exampleWorld none (Except.error []) (Except.error []))
      exampleInput { HTTPServerPort := 9876 }).1 exampleAuthorizeURL rfl).1,
   by decide, by decide,
   ((authorize_url_opened (exampleWorld none (Except.error []) (Except.error []))
      exampleInput { HTTPServerPort := 9876 }).1 exampleAuthorizeURL rfl).2.2.2.2.2.2.2.2.2.1⟩

/-- C5: the token request the run gives to `Do` for the code of the callback
is a POST to the parsed token URI, with the client id and secret as the
user and password of its URL, the form content type as its `Content-Type`
header, and a body that decodes to exactly one value for each of
`grant_type` (`authorization_code`), `code`, `redirect_uri`, `client_id` and
`client_secret`, and to nothing for any other key. -/
theorem token_request_built (w : World) (input : AuthorizationCodeInput) (code : GoString)
    (request : Request) (hreq : tokenRequest w input code = Except.ok request) :
    (∃ tokenURI, w.urlParse input.TokenURI = Except.ok tokenURI
      ∧ request.URL = { tokenURI with
          Host := removeEmptyPort tokenURI.Host,
          User := some { username := input.ClientID, password := input.ClientSecret,
                         passwordSet := true } })
    ∧ request.Method = str "POST"
    ∧ request.Header.index (str "Content-Type") = [str "application/x-www-form-urlencoded"]
    ∧ (ParseQuery request.Body).index (str "grant_type") = [str "authorization_code"]
    ∧ (ParseQuery request.Body).index (str "code") = [code]
    ∧ (ParseQuery request.Body).index (str "redirect_uri") = [input.RedirectURI]
    ∧ (ParseQuery request.Body).index (str "client_id") = [input.ClientID]
    ∧ (ParseQuery request.Body).index (str "client_secret") = [input.ClientSecret]
    ∧ (∀ k, k ≠ str "grant_type" → k ≠ str "code" → k ≠ str "redirect_uri" →
        k ≠ str "client_id" → k ≠ str "client_secret" → (ParseQuery request.Body).index k = [])
    ∧ (∀ (opts : AuthorizationCodeOptions) (authorizeURI u : URL),
        w.urlParse input.AuthorizeURI = Except.ok authorizeURI →
        w.event = some (ChanEvent.callback u) →
        callbackHandler w.urlString input.State u = { Code := code, Err := none } →
        (RunAuthorizationCode w input opts).effects.requests = [request]) := by
  have hreq' := hreq
  unfold tokenRequest NewRequest at hreq
  cases hparse : w.urlParse input.TokenURI with
  | error err => simp [hparse] at hreq
  | ok tokenURI =>
    simp only [hparse, Except.ok.injEq] at hreq
    subst hreq
    refine ⟨⟨tokenURI, rfl, rfl⟩, rfl, ?_, ?_, ?_, ?_, ?_, ?_, ?_, ?_⟩
    · show (Values.Add [] _ _).index _ = _
      rw [index_Add, if_pos rfl]
      rfl
    · show (ParseQuery (tokenForm input code).Encode).index _ = _
      rw [tokenForm_index]; simp +decide
    · show (ParseQuery (tokenForm input code).Encode).index _ = _
      rw [tokenForm_index]; simp +decide
    · show (ParseQuery (tokenForm input code).Encode).index _ = _
      rw [tokenForm_index]; simp +decide
    · show (ParseQuery (tokenForm input code).Encode).index _ = _
      rw [tokenForm_index]; simp +decide
    · show (ParseQuery (tokenForm input code).Encode).index _ = _
      rw [tokenForm_index]; simp +decide
    · intro k h1 h2 h3 h4 h5
      show (ParseQuery (tokenForm input code).Encode).index _ = _
      rw [tokenForm_index, if_neg (Ne.symm h5), if_neg (Ne.symm h4), if_neg (Ne.symm h3),
        if_neg (Ne.symm h2), if_neg (Ne.symm h1)]
    · intro opts authorizeURI u hp hevent hcode
      obtain ⟨eff, hrun, heff⟩ :=
        run_returned_of_code w input opts authorizeURI u code hp hevent hcode
      rw [hrun, (exchangeCode_effects w input eff code).2.2, heff, hreq']
      rfl

set_option maxRecDepth 100000 in
theorem token_request_built_witness :
    tokenRequest (exampleWorld none (Except.error []) (Except.error [])) exampleInput (str "xyz")
      = Except.ok
          { Method := str "POST",
            URL := { Scheme := str "https", Host := str "idp.example", Path := str "/token",
                     User := some { username := str "my client", password := str "s3cr&t",
                                    passwordSet := true } },
            Header := [(str "Content-Type", [str "application/x-www-form-urlencoded"])],
            Body := str "client_id=my+client&client_secret=s3cr%26t&code=xyz&grant_type=authorization_code&redirect_uri=http%3A%2F%2Flocalhost%3A9876%2Foauth%2Fcallback",
            ContentLength := 143,
            Host := str "idp.example" }
    ∧ (ParseQuery (str "client_id=my+client&client_secret=s3cr%26t&code=xyz&grant_type=authorization_code&redirect_uri=http%3A%2F%2Flocalhost%3A9876%2Foauth%2Fcallback")).index
        (str "client_secret") = [str "s3cr&t"] :=
  ⟨rfl,
   (token_request_built (exampleWorld none (Except.error []) (Except.error [])) exampleInput
      (str "xyz") _ rfl).2.2.2.2.2.2.2.1⟩

/-- C6: a token response whose status is not 200 makes the run return an
error with the zero output, whatever the body; once the body is read the error
is the unexpected-status one, whose message holds the code used, the status
received and the raw body. -/
theorem run_unexpected_status (w : World) (input : AuthorizationCodeInput)
    (opts : AuthorizationCodeOptions) (authorizeURI u : URL) (code : GoString)
    (request : Request) (response : Response)
    (hparse : w.urlParse input.AuthorizeURI = Except.ok authorizeURI)
    (hevent : w.event = some (ChanEvent.callback u))
    (hcode : callbackHandler w.urlString input.State u = { Code := code, Err := none })
    (hreq : tokenRequest w input code = Except.ok request)
    (hdo : w.httpDo request = Except.ok response)
    (hstatus : response.StatusCode ≠ 200) :
    (∃ message, (RunAuthorizationCode w input opts).returned =
      some ({ AccessToken := [], IDToken := none, RawResponse := none }, some message))
    ∧ ∀ respBody, response.Body = Except.ok respBody →
      (RunAuthorizationCode w input opts).returned =
        some ({ AccessToken := [], IDToken := none, RawResponse := none },
          some (str "unexpected http status from the '" ++ input.TokenURI
            ++ str "' endpoint with code '" ++ code ++ str "'. expected:" ++ fmtInt 200
            ++ str "; got:" ++ fmtInt response.StatusCode ++ str "; body: " ++ respBody))
      ∧ ∃ a b c, str "unexpected http status from the '" ++ input.TokenURI
            ++ str "' endpoint with code '" ++ code ++ str "'. expected:" ++ fmtInt 200
            ++ str "; got:" ++ fmtInt response.StatusCode ++ str "; body: " ++ respBody
          = a ++ code ++ b ++ fmtInt response.StatusCode ++ c ++ respBody := by
  obtain ⟨eff, hrun, -⟩ := run_returned_of_code w input opts authorizeURI u code hparse hevent hcode
  have hread : ∀ respBody, response.Body = Except.ok respBody →
      (RunAuthorizationCode w input opts).returned =
        some ({ AccessToken := [], IDToken := none, RawResponse := none },
          some (str "unexpected http status from the '" ++ input.TokenURI
            ++ str "' endpoint with code '" ++ code ++ str "'. expected:" ++ fmtInt 200
            ++ str "; got:" ++ fmtInt response.StatusCode ++ str "; body: " ++ respBody)) := by
    intro respBody hbody
    rw [hrun]
    simp only [exchangeCode, hreq, hdo, hbody, hstatus, ne_eq, not_false_eq_true, if_true]
    rfl
  refine ⟨?_, ?_⟩
  · cases hbody : response.Body with
    | ok respBody => exact ⟨_, hread respBody hbody⟩
    | error err =>
      rw [hrun]
      simp only [exchangeCode, hreq, hdo, hbody]
      exact ⟨_, rfl⟩
  · intro respBody hbody
    exact ⟨hread respBody hbody,
      str "unexpected http status from the '" ++ input.TokenURI ++ str "' endpoint with code '",
      str "'. expected:" ++ fmtInt 200 ++ str "; got:", str "; body: ",
      by simp only [List.append_assoc]⟩

theorem run_unexpected_status_witness :
    (RunAuthorizationCode
      (exampleWorld (some (ChanEvent.callback (exampleCallback (str "code=xyz&state=ABC"))))
        (Except.ok { StatusCode := 400, Body := Except.ok (str "\x7b\"access_token\":\"T1\"\x7d") })
        (Except.ok (some [(str "access_token", JSONValue.string (str "T1"))])))
      exampleInput { HTTPServerPort := 9876 }).returned =
      some ({ AccessToken := [], IDToken := none, RawResponse := none },
        some (str "unexpected http status from the 'https://idp.example/token' endpoint with code 'xyz'. expected:200; got:400; body: \x7b\"access_token\":\"T1\"\x7d")) :=
  ((run_unexpected_status
    (exampleWorld (some (ChanEvent.callback (exampleCallback (str "code=xyz&state=ABC"))))
      (Except.ok { StatusCode := 400, Body := Except.ok (str "\x7b\"access_token\":\"T1\"\x7d") })
      (Except.ok (some [(str "access_token", JSONValue.string (str "T1"))])))
    exampleInput { HTTPServerPort := 9876 } _ (exampleCallback (str "code=xyz&state=ABC"))
    (str "xyz") _ _ rfl rfl (by decide) rfl rfl (by decide)).2
    (str "\x7b\"access_token\":\"T1\"\x7d") rfl).1

/-- C7: a status-200 token response whose body decodes to an object with a
string `access_token` makes the run return no error and an output with that
access token, the whole decoded object as raw response, and as ID token the
`id_token` member when it is a string, nil when it is anything else or absent. -/
theorem run_token_success (w : World) (input : AuthorizationCodeInput)
    (opts : AuthorizationCodeOptions) (authorizeURI u : URL) (code : GoString)
    (request : Request) (response : Response) (respBody : GoString)
    (object : JSONObject) (token : GoString)
    (hparse : w.urlParse input.AuthorizeURI = Except.ok authorizeURI)
    (hevent : w.event = some (ChanEvent.callback u))
    (hcode : callbackHandler w.urlString input.State u = { Code := code, Err := none })
    (hreq : tokenRequest w input code = Except.ok request)
    (hdo : w.httpDo request = Except.ok response)
    (hbody : response.Body = Except.ok respBody)
    (hstatus : response.StatusCode = 200)
    (hjson : w.jsonUnmarshal respBody = Except.ok (some object))
    (htoken : JSONObject.index (some object) (str "access_token") = JSONValue.string token) :
    (RunAuthorizationCode w input opts).returned =
      some ({ AccessToken := token,
              IDToken :=
                match JSONObject.index (some object) (str "id_token") with
                | JSONValue.string idToken => some idToken
                | _ => none,
              RawResponse := some object },
            none) := by
  obtain ⟨eff, hrun, -⟩ := run_returned_of_code w input opts authorizeURI u code hparse hevent hcode
  rw [hrun]
  simp only [exchangeCode, hreq, hdo, hbody, hstatus, hjson, htoken, JSONValue.asString]
  cases JSONObject.index (some object) (str "id_token") <;> simp [JSONValue.asString]

/-- C8: a status-200 token response whose body decodes (to an object, or to
the nil map) without a string `access_token` makes the run return the
missing-access-token error with the zero output. -/
theorem run_missing_access_token (w : World) (input : AuthorizationCodeInput)
    (opts : AuthorizationCodeOptions) (authorizeURI u : URL) (code : GoString)
    (request : Request) (response : Response) (respBody : GoString)
    (tokenResponse : Option JSONObject)
    (hparse : w.urlParse input.AuthorizeURI = Except.ok authorizeURI)
    (hevent : w.event = some (ChanEvent.callback u))
    (hcode : callbackHandler w.urlString input.State u = { Code := code, Err := none })
    (hreq : tokenRequest w input code = Except.ok request)
    (hdo : w.httpDo request = Except.ok response)
    (hbody : response.Body = Except.ok respBody)
    (hstatus : response.StatusCode = 200)
    (hjson : w.jsonUnmarshal respBody = Except.ok tokenResponse)
    (hmissing : ∀ token, JSONObject.index tokenResponse (str "access_token")
        ≠ JSONValue.string token) :
    (RunAuthorizationCode w input opts).returned =
      some ({ AccessToken := [], IDToken := none, RawResponse := none },
        some (str "missing 'access_token'' from json response. body: " ++ respBody
          ++ str "; err: " ++ str "<nil>")) := by
  obtain ⟨eff, hrun, -⟩ := run_returned_of_code w input opts authorizeURI u code hparse hevent hcode
  rw [hrun]
  simp only [exchangeCode, hreq, hdo, hbody, hstatus, hjson]
  cases hidx : JSONObject.index tokenResponse (str "access_token") with
  | string s => exact absurd hidx (hmissing s)
  | _ => rfl

theorem run_token_success_witness :
    (RunAuthorizationCode
      (exampleWorld (some (ChanEvent.callback (exampleCallback (str "code=xyz&state=ABC"))))
        (Except.ok { StatusCode := 200, Body := Except.ok exampleTokenBody })
        (Except.ok (some exampleTokenObject)))
      exampleInput { HTTPServerPort := 9876 }).returned =
      some ({ AccessToken := str "T1", IDToken := some (str "I1"),
              RawResponse := some exampleTokenObject }, none)
    ∧ JSONObject.index (some exampleTokenObject) (str "extra") = JSONValue.string (str "E1")
    ∧ (RunAuthorizationCode
      (exampleWorld (some (ChanEvent.callback (exampleCallback (str "code=xyz&state=ABC"))))
        (Except.ok { StatusCode := 200,
                     Body := Except.ok (str "\x7b\"access_token\":\"T1\",\"id_token\":null\x7d") })
        (Except.ok (some [(str "access_token", JSONValue.string (str "T1")),
                          (str "id_token", JSONValue.null)])))
      exampleInput { HTTPServerPort := 9876 }).returned =
      some ({ AccessToken := str "T1", IDToken := none,
              RawResponse := some [(str "access_token", JSONValue.string (str "T1")),
                                   (str "id_token", JSONValue.null)] }, none) :=
  ⟨run_token_success
    (exampleWorld (some (ChanEvent.callback (exampleCallback (str "code=xyz&state=ABC"))))
      (Except.ok { StatusCode := 200, Body := Except.ok exampleTokenBody })
      (Except.ok (some exampleTokenObject)))
    exampleInput { HTTPServerPort := 9876 } _ (exampleCallback (str "code=xyz&state=ABC"))
    (str "xyz") _ _ exampleTokenBody exampleTokenObject (str "T1")
    rfl rfl (by decide) rfl rfl rfl rfl rfl rfl, rfl,
   run_token_success
    (exampleWorld (some (ChanEvent.callback (exampleCallback (str "code=xyz&state=ABC"))))
      (Except.ok { StatusCode := 200,
                   Body := Except.ok (str "\x7b\"access_token\":\"T1\",\"id_token\":null\x7d") })
      (Except.ok (some [(str "access_token", JSONValue.string (str "T1")),
                        (str "id_token", JSONValue.null)])))
    exampleInput { HTTPServerPort := 9876 } _ (exampleCallback (str "code=xyz&state=ABC"))
    (str "xyz") _ _ _ _ (str "T1")
    rfl rfl (by decide) rfl rfl rfl rfl rfl rfl⟩

theorem run_missing_access_token_witness :
    (RunAuthorizationCode
      (exampleWorld (some (ChanEvent.callback (exampleCallback (str "code=xyz&state=ABC"))))
        (Except.ok { StatusCode := 200, Body := Except.ok (str "\x7b\"id_token\":\"I1\"\x7d") })
        (Except.ok (some [(str "id_token", JSONValue.string (str "I1"))])))
      exampleInput { HTTPServerPort := 9876 }).returned =
      some ({ AccessToken := [], IDToken := none, RawResponse := none },
        some (str "missing 'access_token'' from json response. body: \x7b\"id_token\":\"I1\"\x7d; err: <nil>")) :=
  run_missing_access_token
    (exampleWorld (some (ChanEvent.callback (exampleCallback (str "code=xyz&state=ABC"))))
      (Except.ok { StatusCode := 200, Body := Except.ok (str "\x7b\"id_token\":\"I1\"\x7d") })
      (Except.ok (some [(str "id_token", JSONValue.string (str "I1"))])))
    exampleInput { HTTPServerPort := 9876 } _ (exampleCallback (str "code=xyz&state=ABC"))
    (str "xyz") _ _ (str "\x7b\"id_token\":\"I1\"\x7d") _
    rfl rfl (by decide) rfl rfl rfl rfl rfl (fun token h => JSONValue.noConfusion h)

/-- C9 as stated fails: with `RedirectURI = http://localhost:9876/cb`, whose
path is `/cb`, the route registered is `/oauth/callback`. -/
theorem route_is_not_redirect_path :
    exampleParse ({ exampleInput with RedirectURI := str "http://localhost:9876/cb" }).RedirectURI
      = Except.ok { Scheme := str "http", Host := str "localhost:9876", Path := str "/cb" }
    ∧ (RunAuthorizationCode (exampleWorld none (Except.error []) (Except.error []))
        { exampleInput with RedirectURI := str "http://localhost:9876/cb" }
        { HTTPServerPort := 9876 }).effects.routes = [str "/oauth/callback"]
    ∧ [str "/oauth/callback"] ≠ [str "/cb"] := by
  refine ⟨rfl, by decide, by decide⟩


/-- C9, amended: the routes a run registers are the single fixed pattern
`/oauth/callback` when the authorize URI parses and none when it does not
parse; they are the same whatever the redirect URI of the input is. -/
theorem route_is_fixed (w : World) (input : AuthorizationCodeInput)
    (opts : AuthorizationCodeOptions) :
    ((RunAuthorizationCode w input opts).effects.routes =
      match w.urlParse input.AuthorizeURI with
      | Except.ok _ => [str "/oauth/callback"]
      | Except.error _ => [])
    ∧ ∀ redirectURI : GoString,
        (RunAuthorizationCode w { input with RedirectURI := redirectURI } opts).effects.routes
          = (RunAuthorizationCode w input opts).effects.routes := by
  refine ⟨run_routes w input opts, ?_⟩
  intro redirectURI
  rw [run_routes w { input with RedirectURI := redirectURI } opts, run_routes w input opts]

/-- C10 fails on the code: whenever the random source succeeds,
`GenerateRandomString n` returns `2 * n` characters, not `n`; the state the
authorize command generates with size 10 has 20 characters, and with the
all-zero source it is twenty `0`. -/
theorem GenerateRandomString_twice_size :
    (∀ (f : Nat → Byte) (n : Nat),
      ∃ s, GenerateRandomString (Except.ok f) (n : Int) = some (s, none) ∧ s.length = 2 * n)
    ∧ (∀ f : Nat → Byte,
      ∃ s, authorizeState (Except.ok f) [] = some (s, none) ∧ s.length = 20)
    ∧ GenerateRandomString (Except.ok (fun _ => 0)) 10 = some (str "00000000000000000000", none)
    ∧ (str "00000000000000000000").length ≠ 10 := by
  have hgen : ∀ (f : Nat → Byte) (n : Nat),
      ∃ s, GenerateRandomString (Except.ok f) (n : Int) = some (s, none) ∧ s.length = 2 * n := by
    intro f n
    refine ⟨hexEncodeToString ((List.range n).map f), ?_, ?_⟩
    · cases n with
      | zero => rfl
      | succ n =>
        have hpos : ¬ ((n : Int) + 1 < 0) := by omega
        have htoNat : ((n : Int) + 1).toNat = n + 1 := by omega
        simp [GenerateRandomString, randRead, hpos, htoNat]
    · simp [hexEncodeToString_length]
  refine ⟨hgen, ?_, by decide, by decide⟩
  intro f
  obtain ⟨s, hs, hlen⟩ := hgen f 10
  refine ⟨s, ?_, by simpa using hlen⟩
  have hs10 : GenerateRandomString (Except.ok f) 10 = some (s, none) := by simpa using hs
  simp [authorizeState, hs10]

end OAuth2
